import Mathlib

/-!
# mkube — formal model of the effect dispatcher, connection pool and scanner

Shallow embedding, translated from the Rust sources:

* `src/library.rs`        — the `Library` record;
* `src/main.rs`           — the dispatcher loop (`run`): the settings-message
  arms that add / edit / delete libraries, the inline NFO handlers, the
  task-completion drain;
* `src/views/mod.rs`      — the message / event kinds;
* `src/views/movie_manager/mod.rs` — the background-future wrappers;
* `src/lib.rs`            — `LibraryStream` (the scanner): `search`,
  `poll_next`, `VIDEO_EXTENSIONS`.

Machine integers do not occur on the modelled paths; indices are `Nat`.
Fallible Rust code is rendered with `Except` / `Option`; a Rust `panic!`
(out-of-bounds index, future polled after completion) is an explicit
constructor of the result type.
-/

namespace MKube

/-! ## Library records (src/library.rs) -/

/-- `LibraryType` from src/library.rs (the `ftp` / `smb` variants are
feature-gated in the source; they carry no data and behave identically for
the modelled code paths). -/
inductive LibraryType where
  | local
  | ftp
  | smb
deriving Repr, DecidableEq

/-- `LibraryFlavor` from src/library.rs. -/
inductive LibraryFlavor where
  | movie
  | tvShow
deriving Repr, DecidableEq

/-- `Library` from src/library.rs.  `PathBuf` is rendered as `String`. -/
structure Library where
  fs_type : LibraryType
  flavor : LibraryFlavor
  name : String
  host : Option String
  username : Option String
  password : Option String
  path : String
deriving Repr, DecidableEq

/-! ## Connection-pool state and the settings messages (src/main.rs)

The pool is `tokio::sync::Mutex<Vec<Option<MultiFs>>>` (src/lib.rs line 38)
and the parallel known-libraries list is `AppState::libraries :
Vec<Option<Library>>` (src/views/mod.rs line 162).  The connection type is a
parameter `κ`: nothing about the slot discipline depends on its contents,
and `MultiFs::try_from : &Library -> Result<MultiFs, ()>` (src/library.rs)
is passed in as an oracle `tryFrom : Library → Option κ`. -/

/-- The two slot-mutating settings messages handled inline by `run`
(src/main.rs lines 300–329).  Deleting a library is performed through
`EditExisting` (the slot is emptied there; the "Delete" button then simply
returns to the menu without re-saving). -/
inductive SettingsMsg where
  | editExisting (lib : Library)
  | saveLibrary (lib : Library)
deriving Repr, DecidableEq

/-- The dispatcher-owned slot state: the connection pool and the parallel
known-libraries list. -/
structure PoolState (κ : Type) where
  libraries : List (Option Library)
  conns : List (Option κ)
deriving Repr

/-- One settings message applied to the slot state, translated from
src/main.rs:

* `EditExisting(lib)` (lines 300–310): find the first index holding
  `Some(lib)`; write `None` into `state.libraries[ind]` and
  `conns.lock().await[ind]` (the `cfg.libraries[ind]` write is config
  persistence, outside the slot state).  If no index matches, the message
  is ignored with a log line.
* `SaveLibrary(lib)` (lines 311–329): if `MultiFs::try_from(&lib)` succeeds,
  push `Some(conn)` onto the pool and `Some(lib)` onto the libraries list;
  otherwise neither list changes. -/
def applySettingsMsg (tryFrom : Library → Option κ) (s : PoolState κ) :
    SettingsMsg → PoolState κ
  | .editExisting lib =>
    match s.libraries.findIdx? (fun l => l = some lib) with
    | some ind => ⟨s.libraries.set ind none, s.conns.set ind none⟩
    | none => s
  | .saveLibrary lib =>
    match tryFrom lib with
    | some conn => ⟨s.libraries ++ [some lib], s.conns ++ [some conn]⟩
    | none => s

/-- A whole sequence of add / edit / delete messages processed by the loop. -/
def runSettingsMsgs (tryFrom : Library → Option κ) (s : PoolState κ)
    (msgs : List SettingsMsg) : PoolState κ :=
  msgs.foldl (applySettingsMsg tryFrom) s

/-- A sample library used to instantiate universally quantified theorems. -/
def sampleLib : Library :=
  ⟨.local, .movie, "Movies", none, none, none, "/data/movies"⟩

/-- A second, distinct sample library. -/
def sampleLib2 : Library :=
  ⟨.local, .movie, "Other", none, none, none, "/data/other"⟩

/-! ## The scanner (src/lib.rs, `LibraryStream`)

`search` (lines 337–404) lists one directory under the pool lock, returns
`(path, is_dir)` pairs; `poll_next` (lines 410–462) buffers the files and
spawns one child stream per returned directory with `depth - 1`.  The
filesystem seen by the backend is modelled as a finite tree of entries, the
three entry kinds matching `localfs.rs::stat` (`File` / `Directory` /
`Symlink`). -/

/-- `VIDEO_EXTENSIONS` from src/lib.rs lines 33–35. -/
def VIDEO_EXTENSIONS : List String :=
  ["mp4", "mov", "flv", "mkv", "webm", "m4v", "avi", "iso", "wmw", "mpg"]

/-- The characters after the last `.` of the list, or `none` when no `.`
occurs. -/
def afterLastDot : List Char → Option (List Char)
  | [] => none
  | c :: cs =>
    if c = '.' then some ((afterLastDot cs).getD cs) else afterLastDot cs

/-- Rust `Path::extension()` on one file name: `none` when there is no
embedded `.`, or when the name begins with `.` and has no other `.`;
otherwise the portion after the final `.`. -/
def rustExtension (name : String) : Option String :=
  let rest :=
    match name.toList with
    | '.' :: cs => cs
    | cs => cs
  (afterLastDot rest).map fun l => String.mk l

/-- The file filter of `search` (src/lib.rs lines 380–383):
`entry.path().extension().is_some() && VIDEO_EXTENSIONS.contains(ext)`.
The comparison is plain string equality, hence case-sensitive. -/
def keepFile (name : String) : Bool :=
  match rustExtension name with
  | some ext => VIDEO_EXTENSIONS.contains ext
  | none => false

/-- One filesystem entry as reported by the backend (`localfs.rs::stat`
classifies every entry as file, directory or symlink). -/
inductive Fs where
  | file (name : String)
  | dir (name : String) (children : List Fs)
  | link (name : String)

/-- The entry's file name (last path component). -/
def Fs.name : Fs → String
  | .file n => n
  | .dir n _ => n
  | .link n => n

/-- `entry.path().ends_with(".") || entry.path().ends_with("..")`
(src/lib.rs line 393): a `.`/`..` self-reference. -/
def isSelfRef (n : String) : Bool := n = "." || n = ".."

/-- `lfs.as_mut_rfs().exists(&path.join("./.nomedia"))` (src/lib.rs lines
358–365): the listing contains an entry named `.nomedia`. -/
def hasNoMedia (es : List Fs) : Bool := es.any (fun e => e.name = ".nomedia")

/-- What `search`'s entry loop does with one listed entry (src/lib.rs lines
378–402): a regular file is queued as a result (`is_dir = false`) when its
extension passes `keepFile`; a directory is queued for recursion
(`is_dir = true`) unless it is a self-reference or the remaining depth is 0;
symlinks are ignored. -/
def searchEntry (depth : Nat) : Fs → Option (String × Bool)
  | .file n => if keepFile n then some (n, false) else none
  | .dir n _ =>
    if isSelfRef n then none
    else if 0 < depth then some (n, true) else none
  | .link _ => none

/-- One `search` call on a directory whose listing is `es` (src/lib.rs lines
337–404), with the slot present: the `.nomedia` check short-circuits to an
empty result, otherwise the entry loop runs. -/
def searchStep (es : List Fs) (depth : Nat) : List (String × Bool) :=
  if hasNoMedia es then [] else es.filterMap (searchEntry depth)

/-- The set of files produced by a whole scan, as pairs
`(level, file name)` where `level` counts the directories between the scan
root and the file (a file listed directly in the root has level 0).  This is
the recursion structure of `poll_next`: files from the own listing are
yielded, and each directory entry kept by `searchEntry` becomes a child
scan at `depth - 1` whose own `.nomedia` check runs first (its `search`).
The caller of `scanList` has already performed the `.nomedia` check of `es`
itself (see `scanRoot`). -/
def scanList : List Fs → Nat → List (Nat × String)
  | [], _ => []
  | Fs.file n :: es, depth =>
      (if keepFile n then [(0, n)] else []) ++ scanList es depth
  | Fs.dir n cs :: es, depth =>
      (if isSelfRef n then []
       else if 0 < depth then
         (if hasNoMedia cs then []
          else (scanList cs (depth - 1)).map (fun p => (p.1 + 1, p.2)))
       else []) ++ scanList es depth
  | Fs.link _ :: es, depth => scanList es depth

/-- A whole scan from a root whose listing is `root`: the root's own
`.nomedia` check, then the recursive walk. -/
def scanRoot (root : List Fs) (depth : Nat) : List (Nat × String) :=
  if hasNoMedia root then [] else scanList root depth

/-- The files a depth-0 scan may produce: the root listing's own matching
files, with no recursion. -/
def directFiles (es : List Fs) : List (Nat × String) :=
  es.filterMap (fun e =>
    match e with
    | Fs.file n => if keepFile n then some (0, n) else none
    | _ => none)

/-! ## Messages, events and the dispatcher drain
(src/views/mod.rs, src/main.rs, src/views/movie_manager/mod.rs) -/

/-- The four future kinds of `AppMessage` and the four matching
continuation kinds of `AppEvent` (src/views/mod.rs lines 22–70 and
90–136). -/
inductive FutureKind where
  | plain
  | app
  | http
  | ioPool
deriving Repr, DecidableEq

/-- The `AppEvent` variants reached by the modelled code paths
(src/views/mod.rs lines 90–136).  A continuation re-wraps a future builder
of the given kind; the mutation events keep only the data the dispatch flow
looks at. -/
inductive AppEvent where
  | continuation (kind : FutureKind)
  | keyEvent
  | openTable
  | movieUpdated (fsId : Nat)
  | movieDiscovered (fsId : Nat)
  | clearMovieList
  | connTestResult (connected pathExists : Bool)
  | settingsOpenMenu
deriving Repr, DecidableEq

/-- What the dispatcher does with one drained event. -/
inductive DrainAction where
  | resubmit (kind : FutureKind)
  | mutate (e : AppEvent)
deriving Repr, DecidableEq

/-- Whether the loop body falls through to the next iteration or leaves the
loop. -/
inductive LoopControl where
  | continueLoop
  | exitLoop
deriving Repr, DecidableEq

/-- One finished background task handled by the
`task = pending_futures.join_next()` arm of the dispatcher loop
(src/main.rs lines 458–485).  `Ok` carries the task's result
(`JoinSet<Option<AppEvent>>`, line 171); `Err` is a `JoinError` — the task
panicked or was aborted — and is only logged.  The four continuation kinds
are resubmitted as messages, any other event becomes a state mutation, and
every arm falls through to the next loop iteration. -/
def handleTaskCompletion :
    Except String (Option AppEvent) →
      List DrainAction × List String × LoopControl
  | .ok (some (.continuation k)) => ([.resubmit k], [], .continueLoop)
  | .ok (some e) => ([.mutate e], [], .continueLoop)
  | .ok none => ([], [], .continueLoop)
  | .error e =>
    ([], ["pending_futures has returned an error: " ++ e], .continueLoop)

/-- The error boundary wrapped around every fallible background-future body
in src/views/movie_manager/mod.rs (`match async move { ... }.await
{ Ok(ret) => ret, Err(err) => { log::error!(...); vec![] } }` in
`CreateNfo`, `SaveNfo` and `Rename`; `SearchTitle` and `RetrieveArtworks`
match on their fallible call with the same shape): a failing body is logged
and becomes the empty event list. -/
def taskBoundary (body : Except String (List AppEvent)) :
    List AppEvent × List String :=
  match body with
  | .ok evs => (evs, [])
  | .error e => ([], [e])

/-! ## In-flight tasks against the pool: the scanner's `search` and the
NFO tasks (src/lib.rs lines 337–404, src/views/movie_manager/mod.rs) -/

/-- The error cases of `LibraryStream::search` on re-acquiring the pool
lock (src/lib.rs lines 343–357), plus a failed backend call. -/
inductive ScanErr where
  | libraryEditedOrDeleted (idx : Nat)
  | libraryNeverExisted (idx : Nat)
  | backendFailed (msg : String)
deriving Repr, DecidableEq

/-- A backend call performed by a task while it holds the pool lock. -/
inductive BackendOp where
  | existsCheck (path : String)
  | listDir (path : String)
  | createFile (path : String)
deriving Repr, DecidableEq

/-- What the backend at one slot would answer for one directory: the
`.nomedia` existence test and the `list_dir` call (each may fail). -/
structure DirView where
  noMedia : Except String Bool
  listing : Except String (List Fs)

/-- One `LibraryStream::search` call (src/lib.rs lines 337–404) against
pool slot `idx`: the slot is read under the lock via `get_mut` — a missing
index or an emptied slot ends the unit of work with an error before any
backend call; otherwise the `.nomedia` test and `list_dir` run under the
lock and the entry loop builds the `(name, is_dir)` pairs.  Returns the
backend calls performed together with the result. -/
def searchCall (pool : List (Option DirView)) (idx : Nat) (path : String)
    (depth : Nat) : List BackendOp × Except ScanErr (List (String × Bool)) :=
  match pool.get? idx with
  | none => ([], .error (.libraryNeverExisted idx))
  | some none => ([], .error (.libraryEditedOrDeleted idx))
  | some (some view) =>
    match view.noMedia with
    | .error e =>
      ([.existsCheck (path ++ "/./.nomedia")], .error (.backendFailed e))
    | .ok true => ([.existsCheck (path ++ "/./.nomedia")], .ok [])
    | .ok false =>
      match view.listing with
      | .error e =>
        ([.existsCheck (path ++ "/./.nomedia"), .listDir path],
          .error (.backendFailed e))
      | .ok es =>
        ([.existsCheck (path ++ "/./.nomedia"), .listDir path],
          .ok (es.filterMap (searchEntry depth)))

/-- Rust `PathBuf::set_extension`: replace the extension when one exists,
append it otherwise. -/
def rustSetExtension (name ext : String) : String :=
  match rustExtension name with
  | none => name ++ "." ++ ext
  | some e => name.dropRight (e.length + 1) ++ "." ++ ext

/-- The `SaveNfo` background task body (src/views/movie_manager/mod.rs
lines 342–393), inside its `taskBoundary`: lock the pool;
`conns_lock[fs_id]` is a Rust index expression, so an index beyond the
pool panics (the `none` outcome); an emptied slot returns an error that
the boundary turns into one log line and no events, before any backend
call; otherwise the NFO is serialized (`xml`), written with `create_file`
(`write`), and the two-event list is produced.  The returned triple is
(backend calls, events, log lines). -/
def saveNfoTask (pool : List (Option DirView)) (fsId : Nat) (path : String)
    (xml : Except String String) (write : Except String Unit) :
    Option (List BackendOp × List AppEvent × List String) :=
  match pool.get? fsId with
  | none => none
  | some none =>
    some ([], [], ["NFO save failed because fs_id " ++ toString fsId ++
      " does not exist anymore."])
  | some (some _) =>
    match xml with
    | .error e => some ([], [], [e])
    | .ok _ =>
      match write with
      | .error e =>
        some ([.createFile (rustSetExtension path "nfo")], [], [e])
      | .ok _ =>
        some ([.createFile (rustSetExtension path "nfo")],
          [.openTable, .movieUpdated fsId], [])

/-- The `CreateNfo` continuation task body (src/views/movie_manager/mod.rs
lines 245–277), inside its `taskBoundary`: same slot check as `SaveNfo`,
then `get_metadata` (`metadata`), serialization (`xml`) and the
`create_file` write (`write`). -/
def createNfoTask (pool : List (Option DirView)) (fsId : Nat)
    (path : String) (metadata : Except String Unit)
    (xml : Except String String) (write : Except String Unit) :
    Option (List BackendOp × List AppEvent × List String) :=
  match pool.get? fsId with
  | none => none
  | some none =>
    some ([], [], ["NFO creation failed because fs_id " ++ toString fsId ++
      " does not exist anymore."])
  | some (some _) =>
    match metadata with
    | .error e => some ([], [], [e])
    | .ok _ =>
      match xml with
      | .error e => some ([], [], [e])
      | .ok _ =>
        match write with
        | .error e =>
          some ([.createFile (rustSetExtension path "nfo")], [], [e])
        | .ok _ =>
          some ([.createFile (rustSetExtension path "nfo")],
            [.openTable, .movieUpdated fsId], [])

/-- The inline `CreateNfo` message arm of the dispatcher loop (src/main.rs
lines 383–406).  It runs on the coordinating thread inside the loop body:
`conns_lock[fs_id]` panics beyond the pool (`none` outcome); an emptied
slot is logged (with the source's spelling) and the arm `continue`s; after
that, `transform_as_nfo(...).await?` (`tmdb`), `get_metadata(...).await?`
(`metadata`) and the `create_file` write (`write`) all use `?`, so their
errors propagate out of `run` and end the loop, and the serialization uses
`.expect(...)` (`xml`), which panics the coordinating thread.  On success
two events are registered and the loop continues. -/
def inlineCreateNfoArm (pool : List (Option DirView)) (fsId : Nat)
    (tmdb metadata : Except String Unit) (xml : Except String String)
    (write : Except String Unit) :
    Option (List AppEvent × List String × LoopControl) :=
  match pool.get? fsId with
  | none => none
  | some none =>
    some ([], ["NFO creatioon failed because fs_id " ++ toString fsId ++
      " does not exist anymore."], .continueLoop)
  | some (some _) =>
    match tmdb with
    | .error _ => some ([], [], .exitLoop)
    | .ok _ =>
      match metadata with
      | .error _ => some ([], [], .exitLoop)
      | .ok _ =>
        match xml with
        | .error _ => none
        | .ok _ =>
          match write with
          | .error _ => some ([], [], .exitLoop)
          | .ok _ =>
            some ([.openTable, .movieUpdated fsId], [], .continueLoop)

/-! ## Pool-lock discipline (C9)

Each code region that takes the pool lock is transcribed as the sequence
of its externally visible execution steps, in program order. -/

/-- One execution step of a lock-taking region: lock acquire / release, a
suspension point (`.await`), a read or replacement of one pool slot, or a
blocking backend I/O call (`exists`, `list_dir`, `connect`,
`create_file`, `mov`). -/
inductive ExecStep where
  | lockAcquire
  | lockRelease
  | awaitPoint
  | slotAccess
  | backendCall
deriving Repr, DecidableEq

/-- src/lib.rs lines 342–376, the lock block of `LibraryStream::search`:
acquire, read the slot, `.nomedia` `exists` call, `list_dir` call, release
(the entry loop runs after the block ends). -/
def searchLockSteps : List ExecStep :=
  [.lockAcquire, .slotAccess, .backendCall, .backendCall, .lockRelease]

/-- src/main.rs lines 343–371, the `RefreshMovies` arm with one library:
the lock is taken before the loop over slots; for the library the slot is
read, `connect()` runs, then `analyze_library(...).await` and
`try_open_nfo(...).await` run; the guard drops at the end of the arm. -/
def refreshMoviesSteps : List ExecStep :=
  [.lockAcquire, .slotAccess, .backendCall, .awaitPoint, .awaitPoint,
    .lockRelease]

/-- src/main.rs lines 383–406, the `CreateNfo` arm: lock, slot check,
`transform_as_nfo(...).await`, `get_metadata(...).await`, buffer
`write_all(...).await`s, `create_file`, release at the end of the arm. -/
def createNfoSteps : List ExecStep :=
  [.lockAcquire, .slotAccess, .awaitPoint, .awaitPoint, .awaitPoint,
    .backendCall, .lockRelease]

/-- src/views/movie_manager/mod.rs lines 292–341, the `RetrieveArtworks`
task with one artwork: lock, slot check, `download_file(...).await` (an
HTTP fetch followed by a `create_file` on the backend), release at the end
of the future. -/
def retrieveArtworksSteps : List ExecStep :=
  [.lockAcquire, .slotAccess, .awaitPoint, .backendCall, .lockRelease]

/-- Does the region reach a suspension point while the lock count is
positive? -/
def lockHeldAtAwait : List ExecStep → Nat → Bool
  | [], _ => false
  | .lockAcquire :: tr, n => lockHeldAtAwait tr (n + 1)
  | .lockRelease :: tr, n => lockHeldAtAwait tr (n - 1)
  | .awaitPoint :: tr, n => 0 < n || lockHeldAtAwait tr n
  | _ :: tr, n => lockHeldAtAwait tr n

/-- Does the region perform a blocking backend I/O call while the lock
count is positive? -/
def lockHeldAtBackendCall : List ExecStep → Nat → Bool
  | [], _ => false
  | .lockAcquire :: tr, n => lockHeldAtBackendCall tr (n + 1)
  | .lockRelease :: tr, n => lockHeldAtBackendCall tr (n - 1)
  | .backendCall :: tr, n => 0 < n || lockHeldAtBackendCall tr n
  | _ :: tr, n => lockHeldAtBackendCall tr n

/-! ## The poll-level scanner state machine (C7)

`LibraryStream` (src/lib.rs lines 314–481) is a hand-rolled stream.  The
model keeps the node state — `search_future`, `found_path`,
`sub_streams`, `depth` and the node's path — and transcribes `poll_next`
(lines 410–462).  A search future is a one-shot cell: it suspends once
(`Pending`), then yields its result, and — like any `async fn` future —
panics if polled again after completing.  `env path` is the result the
search of `path` will produce.  All recursion is bounded by an explicit
`fuel`; the theorems pick enough fuel that `fuelOut` does not occur. -/

/-- The one-shot `search` future of a node. -/
inductive FutCell where
  | pendingResult (r : Except String (List (String × Bool)))
  | readyResult (r : Except String (List (String × Bool)))
  | consumed
deriving Repr

/-- One `LibraryStream` node: `search_future`, `found_path` (a stack —
`Vec::push`/`Vec::pop` work at the same end), `sub_streams`, `depth`,
and the node's directory path. -/
inductive StreamNode where
  | mk (fut : Option FutCell) (found : List String)
      (subs : List StreamNode) (depth : Nat) (path : String)

/-- `LibraryStream::new` (src/lib.rs lines 323–335): the search future is
created at once. -/
def newNode (env : String → Except String (List (String × Bool)))
    (path : String) (depth : Nat) : StreamNode :=
  .mk (some (.pendingResult (env path))) [] [] depth path

/-- The observable outcome of one `poll_next` call. -/
inductive PollRes where
  | pending
  | itemOk (path : String)
  | itemErr (e : String)
  | streamEnded
  | panicked
  | fuelOut
deriving Repr, DecidableEq

/-- `Vec::swap_remove(i)`: replace element `i` with the last element and
shrink by one. -/
def swapRemove (l : List α) (i : Nat) : List α :=
  match l.getLast? with
  | none => l
  | some a => (l.set i a).dropLast

/-- Outcome of the child sweep (`for i in 0..ls.sub_streams.len()`,
src/lib.rs lines 440–454). -/
inductive SweepOut where
  | swept (found : List String) (subs : List StreamNode)
  | errItem (e : String) (found : List String) (subs : List StreamNode)
  | sweepPanic
  | sweepFuelOut

mutual

/-- `poll_next` (src/lib.rs lines 410–462).  With a live search future:
polling a `pendingResult` suspends; polling a `readyResult` takes the
result — on `Ok` the files are pushed onto `found_path`, each directory
spawns a child node at `depth - 1` and the future is cleared, then the
drain runs (the code's `self.poll_next(cx)` recursion); on `Err` the
error is yielded as an item *without clearing the future* (the `Err` arm
of lines 415–434 has no `ls.search_future = None`), so the cell becomes
`consumed`; polling a `consumed` cell is a panic.  Without a search
future, the drain phase runs. -/
def pollNode (env : String → Except String (List (String × Bool))) :
    Nat → StreamNode → PollRes × StreamNode
  | 0, nd => (.fuelOut, nd)
  | fuel + 1, .mk (some fc) found subs depth path =>
    match fc with
    | .pendingResult r =>
      (.pending, .mk (some (.readyResult r)) found subs depth path)
    | .consumed => (.panicked, .mk (some .consumed) found subs depth path)
    | .readyResult (.error e) =>
      (.itemErr e, .mk (some .consumed) found subs depth path)
    | .readyResult (.ok paths) =>
      let found2 := paths.foldl
        (fun acc p => if p.2 then acc else p.1 :: acc) found
      let subs2 := subs ++ paths.filterMap (fun p =>
        if p.2 then some (newNode env (path ++ "/" ++ p.1) (depth - 1))
        else none)
      drainPhase env fuel (.mk none found2 subs2 depth path)
  | fuel + 1, .mk none found subs depth path =>
    drainPhase env fuel (.mk none found subs depth path)

/-- The drain (src/lib.rs lines 436–460): pop a buffered path if there is
one; otherwise sweep the children, then pop again or end the stream. -/
def drainPhase (env : String → Except String (List (String × Bool))) :
    Nat → StreamNode → PollRes × StreamNode
  | 0, nd => (.fuelOut, nd)
  | fuel + 1, .mk fut found subs depth path =>
    match found with
    | p :: rest => (.itemOk p, .mk fut rest subs depth path)
    | [] =>
      match childSweep env fuel subs.length 0 subs [] with
      | .sweepPanic => (.panicked, .mk fut [] subs depth path)
      | .sweepFuelOut => (.fuelOut, .mk fut [] subs depth path)
      | .errItem e found2 subs2 =>
        (.itemErr e, .mk fut found2 subs2 depth path)
      | .swept found2 subs2 =>
        match found2 with
        | p :: rest => (.itemOk p, .mk fut rest subs2 depth path)
        | [] => (.streamEnded, .mk fut [] subs2 depth path)

/-- The child sweep (src/lib.rs lines 440–454): `remaining` iterations are
left of the range `0..len` that was fixed at loop entry, `i` is the
current index.  `get_mut(i).unwrap()` panics when `swap_remove` has
shrunk the vector below `i`; a child's `Ready(Some(Ok))` pushes onto
`found_path` and the loop continues; `Ready(None)` swap-removes the
child; `Ready(Some(Err))` returns the error immediately. -/
def childSweep (env : String → Except String (List (String × Bool))) :
    Nat → Nat → Nat → List StreamNode → List String → SweepOut
  | 0, _, _, _, _ => .sweepFuelOut
  | _ + 1, 0, _, subs, found => .swept found subs
  | fuel + 1, remaining + 1, i, subs, found =>
    match subs.get? i with
    | none => .sweepPanic
    | some child =>
      match pollNode env fuel child with
      | (.pending, child2) =>
        childSweep env fuel remaining (i + 1) (subs.set i child2) found
      | (.itemOk p, child2) =>
        childSweep env fuel remaining (i + 1) (subs.set i child2)
          (p :: found)
      | (.itemErr e, child2) => .errItem e found (subs.set i child2)
      | (.streamEnded, _) =>
        childSweep env fuel remaining (i + 1) (swapRemove subs i) found
      | (.panicked, _) => .sweepPanic
      | (.fuelOut, _) => .sweepFuelOut

end

theorem getElem?_lt_length {α : Type u} {l : List α} {i : Nat} {a : α}
    (h : l[i]? = some a) : i < l.length := by
  by_contra hc
  rw [List.getElem?_eq_none (Nat.le_of_not_lt hc)] at h
  exact Option.noConfusion h

/-- One message never shrinks either list and preserves the parallel-length
relation between the pool and the known-libraries list. -/
theorem applySettingsMsg_lengths {κ : Type} (tryFrom : Library → Option κ)
    (s : PoolState κ) (m : SettingsMsg) :
    s.libraries.length ≤ (applySettingsMsg tryFrom s m).libraries.length ∧
    s.conns.length ≤ (applySettingsMsg tryFrom s m).conns.length ∧
    (s.libraries.length = s.conns.length →
      (applySettingsMsg tryFrom s m).libraries.length =
        (applySettingsMsg tryFrom s m).conns.length) := by
  cases m with
  | editExisting lib =>
    simp only [applySettingsMsg]
    cases s.libraries.findIdx? (fun l => l = some lib) with
    | none => exact ⟨Nat.le_refl _, Nat.le_refl _, fun h => h⟩
    | some ind => simp [List.length_set]
  | saveLibrary lib =>
    simp only [applySettingsMsg]
    cases tryFrom lib with
    | none => exact ⟨Nat.le_refl _, Nat.le_refl _, fun h => h⟩
    | some conn => simp

/-- One message leaves an occupied slot either untouched or emptied in
place: the slot is never overwritten with a different library, and the same
holds for the connection pool. -/
theorem applySettingsMsg_slot_stable {κ : Type} (tryFrom : Library → Option κ)
    (s : PoolState κ) (m : SettingsMsg) :
    (∀ (i : Nat) (lib : Library), s.libraries[i]? = some (some lib) →
      (applySettingsMsg tryFrom s m).libraries[i]? = some (some lib) ∨
      (applySettingsMsg tryFrom s m).libraries[i]? = some none) ∧
    (∀ (i : Nat) (c : κ), s.conns[i]? = some (some c) →
      (applySettingsMsg tryFrom s m).conns[i]? = some (some c) ∨
      (applySettingsMsg tryFrom s m).conns[i]? = some none) := by
  cases m with
  | editExisting lib =>
    simp only [applySettingsMsg]
    cases s.libraries.findIdx? (fun l => l = some lib) with
    | none => exact ⟨fun i l h => Or.inl h, fun i c h => Or.inl h⟩
    | some ind =>
      constructor
      · intro i l h
        rcases eq_or_ne ind i with rfl | hne
        · exact Or.inr (List.getElem?_set_self (getElem?_lt_length h))
        · exact Or.inl (by rw [List.getElem?_set_ne hne]; exact h)
      · intro i c h
        rcases eq_or_ne ind i with rfl | hne
        · exact Or.inr (List.getElem?_set_self (getElem?_lt_length h))
        · exact Or.inl (by rw [List.getElem?_set_ne hne]; exact h)
  | saveLibrary lib =>
    simp only [applySettingsMsg]
    cases tryFrom lib with
    | none => exact ⟨fun i l h => Or.inl h, fun i c h => Or.inl h⟩
    | some conn =>
      constructor
      · intro i l h
        exact Or.inl (by
          rw [List.getElem?_append_left (getElem?_lt_length h)]; exact h)
      · intro i c h
        exact Or.inl (by
          rw [List.getElem?_append_left (getElem?_lt_length h)]; exact h)

theorem runSettingsMsgs_slot_stable {κ : Type} (tryFrom : Library → Option κ)
    (msgs : List SettingsMsg) (s : PoolState κ) :
    (∀ (i : Nat) (lib : Library), s.libraries[i]? = some (some lib) →
      (runSettingsMsgs tryFrom s msgs).libraries[i]? = some (some lib) ∨
      (runSettingsMsgs tryFrom s msgs).libraries[i]? = some none) ∧
    (∀ (i : Nat) (c : κ), s.conns[i]? = some (some c) →
      (runSettingsMsgs tryFrom s msgs).conns[i]? = some (some c) ∨
      (runSettingsMsgs tryFrom s msgs).conns[i]? = some none) := by
  induction msgs generalizing s with
  | nil => exact ⟨fun i l h => Or.inl h, fun i c h => Or.inl h⟩
  | cons m ms ih =>
    constructor
    · intro i l h
      rcases (applySettingsMsg_slot_stable tryFrom s m).1 i l h with h1 | h1
      · exact (ih (applySettingsMsg tryFrom s m)).1 i l h1
      · -- the slot was emptied; afterwards it can only stay `none` or be
        -- re-filled never happens: an emptied slot is never written again.
        have hnone : ∀ (s' : PoolState κ) (ms' : List SettingsMsg) (j : Nat),
            s'.libraries[j]? = some none →
            (runSettingsMsgs tryFrom s' ms').libraries[j]? = some none := by
          intro s' ms'
          induction ms' generalizing s' with
          | nil => intro j hj; exact hj
          | cons m' ms'' ih' =>
            intro j hj
            refine ih' (applySettingsMsg tryFrom s' m') j ?_
            cases m' with
            | editExisting lib =>
              simp only [applySettingsMsg]
              cases s'.libraries.findIdx? (fun l => l = some lib) with
              | none => exact hj
              | some ind =>
                rcases eq_or_ne ind j with rfl | hne
                · exact List.getElem?_set_self (getElem?_lt_length hj)
                · rw [List.getElem?_set_ne hne]; exact hj
            | saveLibrary lib =>
              simp only [applySettingsMsg]
              cases tryFrom lib with
              | none => exact hj
              | some conn =>
                rw [List.getElem?_append_left (getElem?_lt_length hj)]
                exact hj
        exact Or.inr (hnone (applySettingsMsg tryFrom s m) ms i h1)
    · intro i c h
      rcases (applySettingsMsg_slot_stable tryFrom s m).2 i c h with h1 | h1
      · exact (ih (applySettingsMsg tryFrom s m)).2 i c h1
      · have hnone : ∀ (s' : PoolState κ) (ms' : List SettingsMsg) (j : Nat),
            s'.conns[j]? = some none →
            (runSettingsMsgs tryFrom s' ms').conns[j]? = some none := by
          intro s' ms'
          induction ms' generalizing s' with
          | nil => intro j hj; exact hj
          | cons m' ms'' ih' =>
            intro j hj
            refine ih' (applySettingsMsg tryFrom s' m') j ?_
            cases m' with
            | editExisting lib =>
              simp only [applySettingsMsg]
              cases s'.libraries.findIdx? (fun l => l = some lib) with
              | none => exact hj
              | some ind =>
                rcases eq_or_ne ind j with rfl | hne
                · exact List.getElem?_set_self (getElem?_lt_length hj)
                · rw [List.getElem?_set_ne hne]; exact hj
            | saveLibrary lib =>
              simp only [applySettingsMsg]
              cases tryFrom lib with
              | none => exact hj
              | some conn =>
                rw [List.getElem?_append_left (getElem?_lt_length hj)]
                exact hj
        exact Or.inr (hnone (applySettingsMsg tryFrom s m) ms i h1)

theorem runSettingsMsgs_lengths {κ : Type} (tryFrom : Library → Option κ)
    (msgs : List SettingsMsg) (s : PoolState κ) :
    s.libraries.length ≤ (runSettingsMsgs tryFrom s msgs).libraries.length ∧
    s.conns.length ≤ (runSettingsMsgs tryFrom s msgs).conns.length ∧
    (s.libraries.length = s.conns.length →
      (runSettingsMsgs tryFrom s msgs).libraries.length =
        (runSettingsMsgs tryFrom s msgs).conns.length) := by
  induction msgs generalizing s with
  | nil => exact ⟨Nat.le_refl _, Nat.le_refl _, fun h => h⟩
  | cons m ms ih =>
    have h1 := applySettingsMsg_lengths tryFrom s m
    have h2 := ih (applySettingsMsg tryFrom s m)
    exact ⟨Nat.le_trans h1.1 h2.1, Nat.le_trans h1.2.1 h2.2.1,
      fun h => h2.2.2 (h1.2.2 h)⟩

/-- **C1.** Slot indices in the connection pool and the parallel
known-libraries list are stable under every sequence of add / edit / delete
library messages: `SaveLibrary` appends a new slot at the fresh index
(the old length), `EditExisting` only overwrites the slot and the parallel
entry with `none` in place, entries are never removed or shifted (lengths
never decrease, the parallel-length relation is preserved, and an index
occupied by a library only ever keeps that library or becomes empty — it is
never reused for a different library within the run). -/
theorem c1_slot_indices_stable {κ : Type} (tryFrom : Library → Option κ)
    (s : PoolState κ) (msgs : List SettingsMsg) :
    (∀ (lib : Library) (conn : κ), tryFrom lib = some conn →
      (applySettingsMsg tryFrom s (.saveLibrary lib)).libraries =
          s.libraries ++ [some lib] ∧
      (applySettingsMsg tryFrom s (.saveLibrary lib)).conns =
          s.conns ++ [some conn]) ∧
    s.libraries.length ≤ (runSettingsMsgs tryFrom s msgs).libraries.length ∧
    s.conns.length ≤ (runSettingsMsgs tryFrom s msgs).conns.length ∧
    (s.libraries.length = s.conns.length →
      (runSettingsMsgs tryFrom s msgs).libraries.length =
        (runSettingsMsgs tryFrom s msgs).conns.length) ∧
    (∀ (i : Nat) (lib : Library), s.libraries[i]? = some (some lib) →
      (runSettingsMsgs tryFrom s msgs).libraries[i]? = some (some lib) ∨
      (runSettingsMsgs tryFrom s msgs).libraries[i]? = some none) ∧
    (∀ (i : Nat) (c : κ), s.conns[i]? = some (some c) →
      (runSettingsMsgs tryFrom s msgs).conns[i]? = some (some c) ∨
      (runSettingsMsgs tryFrom s msgs).conns[i]? = some none) := by
  refine ⟨?_, (runSettingsMsgs_lengths tryFrom msgs s).1,
    (runSettingsMsgs_lengths tryFrom msgs s).2.1,
    (runSettingsMsgs_lengths tryFrom msgs s).2.2,
    (runSettingsMsgs_slot_stable tryFrom msgs s).1,
    (runSettingsMsgs_slot_stable tryFrom msgs s).2⟩
  intro lib conn hc
  simp only [applySettingsMsg, hc]
  trivial

/-- Witness for C1: a concrete run (add one library, then edit the first
one away) in which the first slot keeps its library or is emptied in
place. -/
theorem c1_slot_indices_stable_witness :
    (runSettingsMsgs (fun _ => some ()) ⟨[some sampleLib], [some ()]⟩
        [.saveLibrary sampleLib2, .editExisting sampleLib]).libraries[0]? =
      some (some sampleLib) ∨
    (runSettingsMsgs (fun _ => some ()) ⟨[some sampleLib], [some ()]⟩
        [.saveLibrary sampleLib2, .editExisting sampleLib]).libraries[0]? =
      some none :=
  (c1_slot_indices_stable (fun _ => some ())
      ⟨[some sampleLib], [some ()]⟩
      [.saveLibrary sampleLib2, .editExisting sampleLib]).2.2.2.2.1 0
    sampleLib (by decide)

/-- Every file produced by the walk lies at most `depth` directories below
the listing it started from. -/
theorem scanList_level_le (es : List Fs) (depth : Nat) :
    ∀ l n, (l, n) ∈ scanList es depth → l ≤ depth := by
  induction es, depth using scanList.induct with
  | case1 d =>
    intro l m h
    simp [scanList] at h
  | case2 n es depth ih =>
    intro l m h
    simp only [scanList, List.mem_append] at h
    rcases h with h | h
    · by_cases hk : keepFile n = true
      · simp [hk] at h
        omega
      · simp [hk] at h
    · exact ih l m h
  | case3 n cs es depth ih1 ih2 =>
    intro l m h
    simp only [scanList, List.mem_append] at h
    rcases h with h | h
    · by_cases hs : isSelfRef n = true
      · simp [hs] at h
      · by_cases hd : 0 < depth
        · by_cases hn : hasNoMedia cs = true
          · simp [hs, hd, hn] at h
          · simp only [hs, hd, hn, if_true, if_false, Bool.false_eq_true,
              if_pos, if_neg, Bool.not_eq_true] at h
            rcases List.mem_map.mp h with ⟨⟨a, b⟩, hm, he⟩
            have hle := ih1 a b hm
            cases he
            omega
        · simp [hs, hd] at h
    · exact ih2 l m h
  | case4 nm es depth ih =>
    intro l m h
    simp only [scanList] at h
    exact ih l m h

/-- With remaining depth 0 the walk keeps only the listing's own matching
files: no recursion happens. -/
theorem scanList_zero (es : List Fs) : scanList es 0 = directFiles es := by
  induction es with
  | nil => simp [scanList, directFiles]
  | cons e es ih =>
    cases e with
    | file n =>
      simp only [scanList, directFiles, List.filterMap_cons] at ih ⊢
      cases keepFile n <;> simp [ih]
    | dir n cs =>
      simp only [scanList, directFiles, List.filterMap_cons] at ih ⊢
      simp [ih]
    | link n =>
      simp only [scanList, directFiles, List.filterMap_cons] at ih ⊢
      simp [ih]

/-- **C4.**  For every depth limit `d`, a scan yields no file more than `d`
levels below the root (a file listed directly in the root is 0 levels
below), and a scan with `d = 0` yields exactly the root listing's own
matching files — no recursion into subdirectories. -/
theorem c4_depth_bounded :
    (∀ (root : List Fs) (depth l : Nat) (n : String),
      (l, n) ∈ scanRoot root depth → l ≤ depth) ∧
    (∀ root : List Fs,
      scanRoot root 0 =
        if hasNoMedia root then [] else directFiles root) := by
  constructor
  · intro root depth l n h
    unfold scanRoot at h
    split at h
    · simp at h
    · exact scanList_level_le root depth l n h
  · intro root
    unfold scanRoot
    split
    · rfl
    · exact scanList_zero root

/-- Witness for C4 at a concrete two-level tree. -/
theorem c4_depth_bounded_witness :
    (1 : Nat) ≤ 2 ∧
      scanRoot [Fs.dir "sub" [Fs.file "b.mkv"]] 0 =
        if hasNoMedia [Fs.dir "sub" [Fs.file "b.mkv"]] then []
        else directFiles [Fs.dir "sub" [Fs.file "b.mkv"]] :=
  ⟨c4_depth_bounded.1 [Fs.dir "sub" [Fs.file "b.mkv"]] 2 1 "b.mkv"
      (by simp [scanRoot, scanList,
        show hasNoMedia [Fs.dir "sub" [Fs.file "b.mkv"]] = false from
          by decide,
        show hasNoMedia [Fs.file "b.mkv"] = false from by decide,
        show isSelfRef "sub" = false from by decide,
        show keepFile "b.mkv" = true from by decide]),
    c4_depth_bounded.2 [Fs.dir "sub" [Fs.file "b.mkv"]]⟩

/-- **C5.**  A `.nomedia` marker in the scan root suppresses the whole
root's output regardless of the depth limit, and a marked subdirectory
contributes nothing — whatever it contains — with no recursion into it. -/
theorem c5_nomedia_suppresses :
    (∀ (root : List Fs) (depth : Nat),
      hasNoMedia root = true → scanRoot root depth = []) ∧
    (∀ (n : String) (cs es : List Fs) (depth : Nat),
      hasNoMedia cs = true →
      scanList (Fs.dir n cs :: es) depth = scanList es depth) := by
  constructor
  · intro root depth h
    unfold scanRoot
    simp [h]
  · intro n cs es depth h
    simp only [scanList, h]
    split
    · simp
    · split <;> simp

/-- Witness for C5: a marked root with a matching file yields nothing, at
depth 3. -/
theorem c5_nomedia_suppresses_witness :
    scanRoot [Fs.file "a.mp4", Fs.file ".nomedia"] 3 = [] :=
  c5_nomedia_suppresses.1 [Fs.file "a.mp4", Fs.file ".nomedia"] 3 (by decide)

theorem searchEntry_file_iff (depth : Nat) (e : Fs) (n : String) :
    searchEntry depth e = some (n, false) ↔
      e = Fs.file n ∧ keepFile n = true := by
  cases e with
  | file m =>
    simp only [searchEntry]
    cases hk : keepFile m <;>
      simp_all [Fs.file.injEq] <;> rintro rfl <;> simp_all
  | dir m cs =>
    simp only [searchEntry]
    split
    · simp
    · split <;> simp
  | link m => simp [searchEntry]

theorem searchEntry_dir_iff (depth : Nat) (e : Fs) (n : String) :
    searchEntry depth e = some (n, true) ↔
      (∃ cs, e = Fs.dir n cs) ∧ isSelfRef n = false ∧ 0 < depth := by
  cases e with
  | file m =>
    simp only [searchEntry]
    split <;> simp
  | dir m cs =>
    simp only [searchEntry]
    constructor
    · intro h
      by_cases hs : isSelfRef m = true
      · rw [if_pos hs] at h
        exact absurd h (by simp)
      · rw [if_neg hs] at h
        by_cases hd : 0 < depth
        · rw [if_pos hd] at h
          have hm : m = n := congrArg Prod.fst (Option.some.inj h)
          subst hm
          exact ⟨⟨cs, rfl⟩, by simpa using hs, hd⟩
        · rw [if_neg hd] at h
          exact absurd h (by simp)
    · rintro ⟨⟨cs', he⟩, hn, hd⟩
      injection he with h1 h2
      subst h1
      rw [if_neg (by simp [hn]), if_pos hd]
  | link m => simp [searchEntry]

/-- **C6.**  In one scan step over a listing (no `.nomedia` present): a
regular file is queued as a result iff its extension passes the fixed
allow-list; a subdirectory is queued for a depth−1 child scan iff the
remaining depth is positive and it is not a `.`/`..` self-reference; a
symlink is never queued. -/
theorem c6_one_scan_step (es : List Fs) (depth : Nat) (n : String) :
    ((n, false) ∈ searchStep es depth ↔
      hasNoMedia es = false ∧ Fs.file n ∈ es ∧ keepFile n = true) ∧
    ((n, true) ∈ searchStep es depth ↔
      hasNoMedia es = false ∧ (∃ cs, Fs.dir n cs ∈ es) ∧
        isSelfRef n = false ∧ 0 < depth) ∧
    searchEntry depth (Fs.link n) = none := by
  refine ⟨?_, ?_, rfl⟩
  · unfold searchStep
    by_cases h : hasNoMedia es = true
    · simp [h]
    · rw [if_neg h]
      simp only [List.mem_filterMap, Bool.not_eq_true] at h ⊢
      constructor
      · rintro ⟨e, he, hs⟩
        have := (searchEntry_file_iff depth e n).mp hs
        exact ⟨by simpa using h, this.1 ▸ he, this.2⟩
      · rintro ⟨-, he, hk⟩
        exact ⟨Fs.file n, he, (searchEntry_file_iff depth _ n).mpr ⟨rfl, hk⟩⟩
  · unfold searchStep
    by_cases h : hasNoMedia es = true
    · simp [h]
    · rw [if_neg h]
      simp only [List.mem_filterMap, Bool.not_eq_true] at h ⊢
      constructor
      · rintro ⟨e, he, hs⟩
        rcases (searchEntry_dir_iff depth e n).mp hs with ⟨⟨cs, rfl⟩, hn, hd⟩
        exact ⟨by simpa using h, ⟨cs, he⟩, hn, hd⟩
      · rintro ⟨-, ⟨cs, he⟩, hn, hd⟩
        exact ⟨Fs.dir n cs, he,
          (searchEntry_dir_iff depth _ n).mpr ⟨⟨cs, rfl⟩, hn, hd⟩⟩

/-- **C10.**  Extension matching is case-sensitive: a file whose extension
differs from an allow-list entry only by letter case (`MP4`, `Mkv`) is not
yielded, while the lower-case form is. -/
theorem c10_extension_case_sensitive :
    keepFile "Movie.MP4" = false ∧ keepFile "Movie.Mkv" = false ∧
    keepFile "Movie.mp4" = true ∧
    (∀ depth : Nat, scanRoot [Fs.file "Movie.MP4"] depth = []) ∧
    (∀ depth : Nat,
      scanRoot [Fs.file "Movie.mp4"] depth = [(0, "Movie.mp4")]) := by
  refine ⟨by decide, by decide, by decide, ?_, ?_⟩
  · intro depth
    simp [scanRoot, scanList,
      show hasNoMedia [Fs.file "Movie.MP4"] = false from by decide,
      show keepFile "Movie.MP4" = false from by decide]
  · intro depth
    simp [scanRoot, scanList,
      show hasNoMedia [Fs.file "Movie.mp4"] = false from by decide,
      show keepFile "Movie.mp4" = true from by decide]

/-- **C3 (amended).**  Errors of *spawned* background work are contained:
the future wrappers convert any failing body into a log line plus the
empty event list (events are produced only by successful bodies), and
every task-completion outcome — including a `JoinError` from a panicked
task, which is logged — lets the dispatcher loop continue; no completion
arm exits the loop.  (The containment does not extend to the loop's
inline NFO arms: see the counterexample on `inlineCreateNfoArm`.) -/
theorem c3_background_errors_contained :
    (∀ r : Except String (Option AppEvent),
      (handleTaskCompletion r).2.2 = LoopControl.continueLoop) ∧
    (∀ e : String, handleTaskCompletion (.error e) =
      ([], ["pending_futures has returned an error: " ++ e],
        .continueLoop)) ∧
    (∀ e : String, taskBoundary (.error e) = ([], [e])) ∧
    (∀ body : Except String (List AppEvent),
      (taskBoundary body).1 ≠ [] → ∃ evs, body = .ok evs) := by
  refine ⟨?_, fun e => rfl, fun e => rfl, ?_⟩
  · intro r
    rcases r with e | r
    · rfl
    · rcases r with - | e
      · rfl
      · cases e <;> rfl
  · intro body h
    cases body with
    | ok evs => exact ⟨evs, rfl⟩
    | error e => exact absurd rfl h

/-- Witness for C3: a one-event successful body passes the boundary, so
the hypothesis of the last conjunct is dischargeable. -/
theorem c3_background_errors_contained_witness :
    ∃ evs, (Except.ok [AppEvent.openTable] :
        Except String (List AppEvent)) = .ok evs :=
  c3_background_errors_contained.2.2.2 (.ok [AppEvent.openTable])
    (by simp [taskBoundary])

/-- **C3 (failing form).**  A failed background operation *can* terminate
the dispatcher loop: in the inline `CreateNfo` arm (src/main.rs lines
383–406) a failing metadata fetch propagates through `?` out of `run`,
ending the loop instead of being logged and converted to an empty event
list. -/
theorem c3_counterexample_inline_nfo_error_exits_loop :
    inlineCreateNfoArm [some ⟨.ok false, .ok []⟩] 0
        (.error "tmdb request failed") (.ok ()) (.ok "xml") (.ok ()) =
      some ([], [], .exitLoop) := rfl

/-- **C2.**  An in-flight task (a scan step, or an NFO create / save) that
re-acquires the pool lock and finds its captured slot emptied (the library
was deleted or edited) ends that unit of work with a logged, non-fatal
error: `search` returns an error having performed no backend call, and the
NFO tasks return a defined result (no panic) with one log line, no events
and no backend call — no further mutation references the deleted index. -/
theorem c2_deleted_slot_benign (pool : List (Option DirView)) (idx : Nat)
    (h : pool.get? idx = some none) :
    (∀ (path : String) (depth : Nat),
      searchCall pool idx path depth =
        ([], .error (.libraryEditedOrDeleted idx))) ∧
    (∀ (path : String) (xml : Except String String)
        (write : Except String Unit),
      saveNfoTask pool idx path xml write =
        some ([], [], ["NFO save failed because fs_id " ++ toString idx ++
          " does not exist anymore."])) ∧
    (∀ (path : String) (metadata : Except String Unit)
        (xml : Except String String) (write : Except String Unit),
      createNfoTask pool idx path metadata xml write =
        some ([], [], ["NFO creation failed because fs_id " ++
          toString idx ++ " does not exist anymore."])) ∧
    (∀ (tmdb metadata : Except String Unit) (xml : Except String String)
        (write : Except String Unit),
      inlineCreateNfoArm pool idx tmdb metadata xml write =
        some ([], ["NFO creatioon failed because fs_id " ++ toString idx ++
          " does not exist anymore."], .continueLoop)) := by
  refine ⟨?_, ?_, ?_, ?_⟩
  · intro path depth
    unfold searchCall
    rw [h]
  · intro path xml write
    unfold saveNfoTask
    rw [h]
  · intro path metadata xml write
    unfold createNfoTask
    rw [h]
  · intro tmdb metadata xml write
    unfold inlineCreateNfoArm
    rw [h]

/-- Witness for C2: a two-slot pool whose second slot has been emptied. -/
theorem c2_deleted_slot_benign_witness :
    searchCall [some ⟨.ok false, .ok []⟩, none] 1 "lib" 2 =
      ([], .error (.libraryEditedOrDeleted 1)) :=
  (c2_deleted_slot_benign [some ⟨.ok false, .ok []⟩, none] 1 rfl).1 "lib" 2

/-- **C8 (failing form).**  The builder types in src/views/mod.rs declare
every background-future result as an event *list* (`Vec<AppEvent>`), and
the `SaveNfo` task produced in src/views/movie_manager/mod.rs does return
a two-event list on success — but the dispatcher in src/main.rs types its
task pool `JoinSet<Option<AppEvent>>` (line 171) and its drain (lines
458–477) handles at most one event per finished task, so the two files
contradict each other: as the dispatcher is written, no finished task can
fan out more than one event. -/
theorem c8_event_list_vs_option_drain :
    ((saveNfoTask [some ⟨.ok false, .ok []⟩] 0 "Movie.mp4" (.ok "xml")
        (.ok ())).map (fun r => r.2.1)) =
      some [AppEvent.openTable, AppEvent.movieUpdated 0] ∧
    (∀ r : Except String (Option AppEvent),
      (handleTaskCompletion r).1.length ≤ 1) := by
  constructor
  · rfl
  · intro r
    rcases r with e | r
    · simp [handleTaskCompletion]
    · rcases r with - | e
      · simp [handleTaskCompletion]
      · cases e <;> simp [handleTaskCompletion]

/-- **C9 (failing form).**  The claim "the pool lock is never held across
an await nor across long-running I/O beyond a slot read/replace" is false
at the `CreateNfo` arm of the dispatcher: the lock is held across its
awaits.  (`RefreshMovies` and `RetrieveArtworks` likewise.) -/
theorem c9_counterexample_lock_across_await :
    lockHeldAtAwait createNfoSteps 0 = true ∧
    lockHeldAtAwait refreshMoviesSteps 0 = true ∧
    lockHeldAtAwait retrieveArtworksSteps 0 = true := by
  refine ⟨rfl, rfl, rfl⟩

/-- **C9 (amended).**  The scanner's `search` releases the pool lock
before any suspension point (no await occurs under the lock), but it does
hold the lock across its two blocking backend calls; and the dispatcher's
`RefreshMovies` / `CreateNfo` arms and the `RetrieveArtworks` task hold
the pool lock across awaits for the whole unit of work. -/
theorem c9_lock_discipline_as_implemented :
    lockHeldAtAwait searchLockSteps 0 = false ∧
    lockHeldAtBackendCall searchLockSteps 0 = true ∧
    lockHeldAtBackendCall createNfoSteps 0 = true ∧
    lockHeldAtAwait createNfoSteps 0 = true ∧
    lockHeldAtAwait refreshMoviesSteps 0 = true ∧
    lockHeldAtAwait retrieveArtworksSteps 0 = true := by
  refine ⟨rfl, rfl, rfl, rfl, rfl, rfl⟩

/-- **C7 (failing form).**  Concrete run against a root whose listing
fails: the first poll suspends, the second yields the single failure item
— and the third poll does *not* yield end-of-stream: it re-polls the
completed search future (the `Err` arm of `poll_next` never clears
`search_future`) and panics. -/
theorem c7_counterexample_poll_after_error_faults :
    (pollNode (fun _ => .error "listing failed") 5
        (newNode (fun _ => .error "listing failed") "lib" 2)).1 =
      PollRes.pending ∧
    (pollNode (fun _ => .error "listing failed") 5
        ((pollNode (fun _ => .error "listing failed") 5
          (newNode (fun _ => .error "listing failed") "lib" 2)).2)).1 =
      PollRes.itemErr "listing failed" ∧
    (pollNode (fun _ => .error "listing failed") 5
        ((pollNode (fun _ => .error "listing failed") 5
          ((pollNode (fun _ => .error "listing failed") 5
            (newNode (fun _ => .error "listing failed") "lib" 2)).2)).2)).1 =
      PollRes.panicked := by
  refine ⟨rfl, rfl, rfl⟩

/-- **C7 (amended).**  A scan whose root listing fails yields exactly one
failure item and no path at all: the first poll suspends on the listing
I/O, the second yields the failure.  But the failed search future is not
cleared, so every subsequent poll re-polls a completed future — a fault
(panic), with the node state unchanged — instead of yielding
end-of-stream. -/
theorem c7_failing_root_single_failure
    (env : String → Except String (List (String × Bool)))
    (p : String) (d : Nat) (e : String) (fuel : Nat)
    (h : env p = .error e) :
    pollNode env (fuel + 1) (newNode env p d) =
      (.pending, .mk (some (.readyResult (.error e))) [] [] d p) ∧
    pollNode env (fuel + 1)
        (.mk (some (.readyResult (.error e))) [] [] d p) =
      (.itemErr e, .mk (some .consumed) [] [] d p) ∧
    (∀ fuel2 : Nat,
      pollNode env (fuel2 + 1) (.mk (some .consumed) [] [] d p) =
        (.panicked, .mk (some .consumed) [] [] d p)) := by
  refine ⟨?_, ?_, ?_⟩
  · simp [newNode, h, pollNode]
  · simp [pollNode]
  · intro fuel2
    simp [pollNode]

/-- Witness for C7's amended theorem at a concrete failing root. -/
theorem c7_failing_root_single_failure_witness :
    pollNode (fun _ => .error "missing root") 4
        (newNode (fun _ => .error "missing root") "movies" 2) =
      (.pending,
        .mk (some (.readyResult (.error "missing root"))) [] [] 2
          "movies") :=
  (c7_failing_root_single_failure (fun _ => .error "missing root")
      "movies" 2 "missing root" 3 rfl).1

end MKube
